import Mathlib

/-!
# deckgl-geojson-vt: the tile adapter of `src/app.js`

A shallow embedding of the pure parts of `src/app.js`:

* `featureToGeoJSON` / `vectorTileToGeoJSON` (lines 25-52): the adapter that turns
  a geojson-vt tile payload into GeoJSON features;
* `fetchData` / `getTileData` (lines 63-79): the tile query made by the layer;
* the placement transform computed in `renderSubLayers` (lines 85-98).

JavaScript values are untyped; they are embedded as the tree type `JSVal`.
Numbers that carry tile coordinates are integer-valued doubles, `NaN` or an
infinity (`Num`); `parseInt` rounds to the nearest double and the rendering of a
number follows `Number::toString`. The placement transform is computed over exact
rationals.
-/

namespace DeckGLGeoJSONVT

/-! ## JavaScript values -/

/-- An untyped JavaScript value, as far as the adapter can observe one (it reads only
the length and the slots of the part array; everything else is passed along).
Finite numbers are exact rationals. -/
inductive JSVal where
  | undefined : JSVal
  | null : JSVal
  | bool (b : Bool) : JSVal
  | num (n : ℚ) : JSVal
  | str (s : String) : JSVal
  | arr (items : List JSVal) : JSVal
  | obj (props : List (String × JSVal)) : JSVal

namespace JSVal

/-- Reading `a[i]` yields `undefined` when the slot does not exist. -/
def ofOption : Option JSVal → JSVal
  | some v => v
  | none => undefined

end JSVal

/-- JavaScript array read `xs[i]` for an integer-valued index: `none` stands for
`undefined` (index negative or past the end). -/
def arrayGet {α : Type} (xs : List α) (i : Int) : Option α :=
  if 0 ≤ i then xs.get? i.toNat else none

/-- Substitution `${v}` of a template literal, for a value that is a string or
`undefined` (`none`). -/
def templateSubst : Option String → String
  | some s => s
  | none => "undefined"

/-! ## Tile payload and GeoJSON output -/

/-- A feature of a geojson-vt tile: numeric type code, sequence of parts, tags. -/
structure TileFeature where
  type : Int
  geometry : List JSVal
  tags : JSVal

/-- A tile payload as returned by `getTile`: the object whose `features` are read. -/
structure Tile where
  features : List TileFeature

/-- The `geometry` member of the object built at `src/app.js` lines 46-49. -/
structure Geometry where
  type : JSVal
  coordinates : JSVal

/-- The object literal returned by `featureToGeoJSON` (`src/app.js` lines 44-51). -/
structure GeoJSONFeature where
  type : String
  geometry : Geometry
  properties : JSVal

/-- The array `types` of line 34: the four base type names, indexed by type code. -/
def types : List String := ["Unknown", "Point", "LineString", "Polygon"]

/-- The function `featureToGeoJSON` (`src/app.js` lines 33-52). -/
def featureToGeoJSON (feature : TileFeature) : GeoJSONFeature :=
  let type := arrayGet types feature.type
  let geometry := feature.geometry
  if geometry.length = 1 then
    { type := "Feature"
      geometry :=
        { type := JSVal.ofOption (type.map JSVal.str)
          coordinates := JSVal.ofOption (arrayGet geometry 0) }
      properties := feature.tags }
  else
    { type := "Feature"
      geometry :=
        { type := JSVal.str ("Multi" ++ templateSubst type)
          coordinates := JSVal.arr geometry }
      properties := feature.tags }

/-- The function `vectorTileToGeoJSON` (`src/app.js` lines 25-31): the loop pushes the image of
each feature onto `result`, in iteration order. -/
def vectorTileToGeoJSON (tile : Tile) : List GeoJSONFeature :=
  tile.features.foldl (fun result feature => result ++ [featureToGeoJSON feature]) []

/-! ## Tile coordinates as JavaScript numbers -/

/-- A JavaScript number as `parseInt` produces it: an integer-valued double (given by
its exact integer value), `NaN`, or an infinity. `-0` is identified with `0`. -/
inductive Num where
  | int (i : Int) : Num
  | nan : Num
  | infinity (negative : Bool) : Num
  deriving DecidableEq, Repr

/-- Number of halvings that bring `n` below 2^53, that is the number of low bits a
53-bit significand cannot hold; `fuel` bounds the loop and `n` itself is enough. -/
def excessBits : Nat → Nat → Nat
  | 0, _ => 0
  | fuel + 1, n => if n < 2 ^ 53 then 0 else excessBits fuel (n / 2) + 1

/-- Rounding of a non-negative integer to the nearest double (IEEE 754 binary64,
ties to even), as an exact integer; `none` is the overflow to `Infinity`. Below 2^53
every integer is a double. Above, the lowest `e` bits are rounded away; the largest
finite double is (2^53 - 1) * 2^971. -/
def roundToDouble (n : Nat) : Option Nat :=
  if n < 2 ^ 53 then some n
  else
    let e := excessBits n n
    let q := n / 2 ^ e
    let r := n % 2 ^ e
    let half := 2 ^ (e - 1)
    let q1 := if half < r ∨ (r = half ∧ q % 2 = 1) then q + 1 else q
    if e < 971 ∨ (e = 971 ∧ q1 < 2 ^ 53) then some (q1 * 2 ^ e) else none

/-- The `StrWhiteSpaceChar` class of ECMAScript (white space and line terminators),
skipped by `parseInt` at the start of its input. -/
def isStrWhiteSpaceChar (c : Char) : Bool :=
  let n := c.toNat
  n = 0x09 || n = 0x0A || n = 0x0B || n = 0x0C || n = 0x0D || n = 0x20 || n = 0xA0
    || n = 0x1680 || (0x2000 ≤ n && n ≤ 0x200A) || n = 0x2028 || n = 0x2029
    || n = 0x202F || n = 0x205F || n = 0x3000 || n = 0xFEFF

/-- Value of a character as a digit in radix 36 (`0-9`, `a-z`, `A-Z`). -/
def digitValue (c : Char) : Option Nat :=
  let n := c.toNat
  if 48 ≤ n ∧ n ≤ 57 then some (n - 48)
  else if 97 ≤ n ∧ n ≤ 122 then some (n - 87)
  else if 65 ≤ n ∧ n ≤ 90 then some (n - 55)
  else none

/-- Value of a character as a radix-`R` digit, if it is one. -/
def radixDigit (R : Nat) (c : Char) : Option Nat :=
  match digitValue c with
  | some d => if d < R then some d else none
  | none => none

/-- Splits off a leading `0x` / `0X`, which switches `parseInt` to radix 16. -/
def stripHexPrefix : List Char → Nat × List Char
  | '0' :: 'x' :: rest => (16, rest)
  | '0' :: 'X' :: rest => (16, rest)
  | S => (10, S)

/-- The ECMAScript function `parseInt(string)` with no radix argument: skip white space, read a
sign, an optional hexadecimal prefix, then the longest run of digits; `NaN` when
that run is empty. The integer read is returned as a number, so it is rounded to the
nearest double (the standard also lets an engine zero the decimal digits after the
20th before rounding; the digits rendered by `Number::toString` are unaffected, all
digits after the 17th being zeros there). -/
def parseInt (string : List Char) : Num :=
  let S := string.dropWhile isStrWhiteSpaceChar
  let negative : Bool := S.head? = some '-'
  let S := if S.head? = some '+' ∨ S.head? = some '-' then S.tail else S
  let RS := stripHexPrefix S
  let R := RS.1
  let Z := RS.2.takeWhile (fun c => (radixDigit R c).isSome)
  if Z = [] then Num.nan
  else
    match roundToDouble (Z.foldl (fun acc c => acc * R + (radixDigit R c).getD 0) 0) with
    | some v => Num.int (if negative then -(v : Int) else (v : Int))
    | none => Num.infinity negative

/-- Conversion `ToString` of an array slot handed to `parseInt`: a missing slot is `undefined`. -/
def slotToString : Option (List Char) → List Char
  | some s => s
  | none => "undefined".toList

/-- One step of the search for the shortest decimal of `Number::toString`: the
multiples of `10^e` next to `x` (below or equal, and above), kept when they round to
the double `x`; of two that do, the closer one, and on a tie the even multiple. -/
def shortestAt (x e : Nat) : Option Nat :=
  let lo := x / 10 ^ e * 10 ^ e
  let hi := lo + 10 ^ e
  match decide (roundToDouble lo = some x), decide (roundToDouble hi = some x) with
  | true, false => some lo
  | false, true => some hi
  | true, true =>
    if x - lo < hi - x ∨ (x - lo = hi - x ∧ (x / 10 ^ e) % 2 = 0) then some lo else some hi
  | false, false => none

/-- The integer `s * 10^(n-k)` of `Number::toString` for a non-negative integer-valued
double `x`: the integer with the fewest significant decimal digits that rounds to
`x`. The search goes from one significant digit (`e` one less than the digit count
of `x`) down to all digits (`e = 0`, where `x` itself is found). -/
def shortestDecimal (x : Nat) : Nat :=
  ((List.range (Nat.toDigits 10 x).length).reverse.findSome? (shortestAt x)).getD x

/-- Drops the zeros that end a digit string. -/
def stripTrailingZeros (ds : List Char) : List Char :=
  (ds.reverse.dropWhile (fun c => c = '0')).reverse

/-- The ECMAScript operation `Number::toString` (radix 10) on a non-negative
integer-valued double: with `n` the digit count of the shortest decimal, the plain
digits when `n ≤ 21`, otherwise the exponent form (first digit, a point and the other
significant digits if any, then `e+` and `n - 1`). -/
def nonNegToString (x : Nat) : List Char :=
  let ds := Nat.toDigits 10 (shortestDecimal x)
  let n := ds.length
  if n ≤ 21 then ds
  else
    match stripTrailingZeros ds with
    | [] => ds
    | [d] => d :: 'e' :: '+' :: Nat.toDigits 10 (n - 1)
    | d :: rest => d :: '.' :: (rest ++ 'e' :: '+' :: Nat.toDigits 10 (n - 1))

/-- Rendering `String(n)` of an integer-valued number: `Number::toString`, with a
minus sign for a negative number. -/
def numberToString : Int → List Char
  | Int.ofNat m => nonNegToString m
  | Int.negSucc m => '-' :: nonNegToString (m + 1)

/-- The layer's `data` template of line 83 (x, y, z joined by slashes) with the three
placeholders replaced by the renderings of the tile's coordinates. -/
def tileURL (x y z : Int) : String :=
  String.mk (numberToString x ++ '/' :: (numberToString y ++ '/' :: numberToString z))

/-! ## The tile query -/

/-- The handle built by `geojsonvt(d, ...)`, seen through the one method the
application calls: `getTile(z, x, y)`, returning a payload or `null`. -/
structure Index where
  getTile : Num → Num → Num → Option Tile

/-- The object `{x, y, z}` passed to `getTileData`. -/
structure TileID where
  x : Num
  y : Num
  z : Num

/-- The function `getTileData` (`src/app.js` lines 71-79); `tileIndex` is the component state
(`null` until the document is loaded). `none` is the returned `null`. -/
def getTileData (tileIndex : Option Index) (tile : TileID) : Option (List GeoJSONFeature) :=
  match tileIndex with
  | some index =>
    match index.getTile tile.z tile.x tile.y with
    | some tileData => some (vectorTileToGeoJSON tileData)
    | none => none
  | none => none

/-- The function `fetchData` (`src/app.js` lines 63-69). -/
def fetchData (tileIndex : Option Index) (url : String) : Option (List GeoJSONFeature) :=
  let _url := url.toList.splitOn '/'
  let x := parseInt (slotToString (arrayGet _url 0))
  let y := parseInt (slotToString (arrayGet _url 1))
  let z := parseInt (slotToString (arrayGet _url 2))
  getTileData tileIndex { x := x, y := y, z := z }

/-- Modelled from the spec: the index behind `getTile` is the geojson-vt package,
which is not under `src/`. The spec (sections 3, 4.2, 6, 7, 8) describes it: tiles
are keyed by `(z, x, y)` with `z ≥ 0` and `0 ≤ x, y < 2^z`; a query outside that
range, beyond `maxZoom`, or for a tile with no geometry returns `absent`. -/
structure SpecIndex where
  maxZoom : Nat
  tiles : Nat → Nat → Nat → Option Tile

/-- Modelled from the spec: `getTile(z, x, y)` of section 4.2, with the coordinate
validation of sections 3 and 7 (`absent`, never a failure, for an invalid query). -/
def SpecIndex.getTile (s : SpecIndex) : Num → Num → Num → Option Tile
  | Num.int z, Num.int x, Num.int y =>
    if 0 ≤ z ∧ z ≤ s.maxZoom ∧ 0 ≤ x ∧ x < 2 ^ z.toNat ∧ 0 ≤ y ∧ y < 2 ^ z.toNat then
      s.tiles z.toNat x.toNat y.toNat
    else none
  | _, _, _ => none

/-- The spec-modelled index as the handle held in `tileIndex`. -/
def SpecIndex.toIndex (s : SpecIndex) : Index :=
  { getTile := s.getTile }

/-! ## The placement transform of `renderSubLayers` -/

/-- The constant `WORLD_SIZE = 512` (line 11). -/
def WORLD_SIZE : ℚ := 512

/-- The constant `EXTENT = 4096` (line 22). -/
def EXTENT : ℚ := 4096

/-- The `z`, `x`, `y` of `props.tile`, read by `renderSubLayers`. -/
structure TileHeader where
  x : Int
  y : Int
  z : Nat

/-- What `renderSubLayers` stores for placement: the factors handed to
`new Matrix4().scale([...])` (line 95) and `coordinateOrigin` (line 96). -/
structure Placement where
  scale : ℚ × ℚ × ℚ
  coordinateOrigin : ℚ × ℚ × ℚ

/-- The placement computed by `renderSubLayers` (`src/app.js` lines 89-96). -/
def renderSubLayers (tile : TileHeader) : Placement :=
  let worldScale : ℚ := 2 ^ tile.z
  let xScale := WORLD_SIZE / worldScale / EXTENT
  let yScale := -xScale
  let xOffset := (WORLD_SIZE * tile.x) / worldScale
  let yOffset := WORLD_SIZE * (1 - tile.y / worldScale)
  { scale := (xScale, yScale, 1)
    coordinateOrigin := (xOffset, yOffset, 0) }

/-- World position of a local tile coordinate under a placement: the scaled local
coordinate, displaced by the origin. -/
def Placement.toWorld (p : Placement) (v : ℚ × ℚ × ℚ) : ℚ × ℚ × ℚ :=
  (p.coordinateOrigin.1 + p.scale.1 * v.1,
   p.coordinateOrigin.2.1 + p.scale.2.1 * v.2.1,
   p.coordinateOrigin.2.2 + p.scale.2.2 * v.2.2)

/-! ## Sanity checks on the embedding -/

example : parseInt "12".toList = Num.int 12 := by decide
example : parseInt " -7px".toList = Num.int (-7) := by decide
example : parseInt "0x1f".toList = Num.int 31 := by decide
example : parseInt "undefined".toList = Num.nan := by decide
example : parseInt "".toList = Num.nan := by decide
example : "3/5/4".toList.splitOn '/' = ["3".toList, "5".toList, "4".toList] := by decide
example : tileURL 3 (-5) 4 = "3/-5/4" := by decide
example : parseInt "9007199254740993".toList = Num.int 9007199254740992 := by decide
example : parseInt "1e+21".toList = Num.int 1 := by decide
example : tileURL (10 ^ 21) 0 0 = "1e+21/0/0" := by decide
example : numberToString (2 ^ 60) = "1152921504606847000".toList := by decide
example : numberToString (2 ^ 70) = "1.1805916207174113e+21".toList := by decide
example : numberToString (-(2 ^ 53)) = "-9007199254740992".toList := by decide

/-! ## The adapter: `featureToGeoJSON` and `vectorTileToGeoJSON` -/

theorem arrayGet_types_cases (c : Int) (h0 : 0 ≤ c) (h3 : c ≤ 3) :
    c = 0 ∨ c = 1 ∨ c = 2 ∨ c = 3 := by omega

theorem featureToGeoJSON_single (f : TileFeature) (p : JSVal) (h : f.geometry = [p]) :
    featureToGeoJSON f =
      { type := "Feature"
        geometry :=
          { type := JSVal.ofOption ((arrayGet types f.type).map JSVal.str)
            coordinates := p }
        properties := f.tags } := by
  simp [featureToGeoJSON, h, arrayGet, JSVal.ofOption]

theorem featureToGeoJSON_single_of_length (f : TileFeature) (h : f.geometry.length = 1) :
    featureToGeoJSON f =
      { type := "Feature"
        geometry :=
          { type := JSVal.ofOption ((arrayGet types f.type).map JSVal.str)
            coordinates := JSVal.ofOption (arrayGet f.geometry 0) }
        properties := f.tags } := by
  simp [featureToGeoJSON, h]

theorem featureToGeoJSON_multi (f : TileFeature) (h : f.geometry.length ≠ 1) :
    featureToGeoJSON f =
      { type := "Feature"
        geometry :=
          { type := JSVal.str ("Multi" ++ templateSubst (arrayGet types f.type))
            coordinates := JSVal.arr f.geometry }
        properties := f.tags } := by
  simp [featureToGeoJSON, h]

/-- C1: for a tile feature whose type code is in 0..3 and whose geometry has exactly
one part `p`, the geometry returned by `featureToGeoJSON` has as type the name at
that index of Unknown, Point, LineString, Polygon (which does not start with
Multi), and has as coordinates the part `p` itself. -/
theorem featureToGeoJSON_single_part (f : TileFeature) (p : JSVal)
    (h0 : 0 ≤ f.type) (h3 : f.type ≤ 3) (hp : f.geometry = [p]) :
    ∃ name : String,
      ["Unknown", "Point", "LineString", "Polygon"].get? f.type.toNat = some name ∧
      ¬ ("Multi".toList <+: name.toList) ∧
      (featureToGeoJSON f).geometry.type = JSVal.str name ∧
      (featureToGeoJSON f).geometry.coordinates = p := by
  rw [featureToGeoJSON_single f p hp]
  rcases arrayGet_types_cases f.type h0 h3 with h | h | h | h <;> rw [h]
  · exact ⟨"Unknown", by decide, by decide, rfl, rfl⟩
  · exact ⟨"Point", by decide, by decide, rfl, rfl⟩
  · exact ⟨"LineString", by decide, by decide, rfl, rfl⟩
  · exact ⟨"Polygon", by decide, by decide, rfl, rfl⟩

theorem featureToGeoJSON_single_part_witness :
    ∃ name : String,
      ["Unknown", "Point", "LineString", "Polygon"].get?
          (TileFeature.mk 2 [JSVal.arr [JSVal.num 1, JSVal.num 2]] JSVal.null).type.toNat
        = some name ∧
      ¬ ("Multi".toList <+: name.toList) ∧
      (featureToGeoJSON ⟨2, [JSVal.arr [JSVal.num 1, JSVal.num 2]], JSVal.null⟩).geometry.type
        = JSVal.str name ∧
      (featureToGeoJSON ⟨2, [JSVal.arr [JSVal.num 1, JSVal.num 2]], JSVal.null⟩).geometry.coordinates
        = JSVal.arr [JSVal.num 1, JSVal.num 2] :=
  featureToGeoJSON_single_part ⟨2, [JSVal.arr [JSVal.num 1, JSVal.num 2]], JSVal.null⟩
    (JSVal.arr [JSVal.num 1, JSVal.num 2]) (by decide) (by decide) rfl

/-- C2: for a tile feature whose type code is in 0..3 and whose part count differs
from 1, the geometry returned by `featureToGeoJSON` has as type Multi prepended to
the base name at that index, and has as coordinates the whole part sequence,
unchanged; in particular a type-2 feature with three parts yields MultiLineString
with exactly those three parts. -/
theorem featureToGeoJSON_multi_part (f : TileFeature)
    (h0 : 0 ≤ f.type) (h3 : f.type ≤ 3) (hn : f.geometry.length ≠ 1) :
    (∃ name : String,
      ["Unknown", "Point", "LineString", "Polygon"].get? f.type.toNat = some name ∧
      (featureToGeoJSON f).geometry.type = JSVal.str ("Multi" ++ name) ∧
      (featureToGeoJSON f).geometry.coordinates = JSVal.arr f.geometry) ∧
    (∀ a b c : JSVal, f.type = 2 → f.geometry = [a, b, c] →
      (featureToGeoJSON f).geometry =
        { type := JSVal.str "MultiLineString", coordinates := JSVal.arr [a, b, c] }) := by
  rw [featureToGeoJSON_multi f hn]
  refine ⟨?_, ?_⟩
  · rcases arrayGet_types_cases f.type h0 h3 with h | h | h | h <;> rw [h]
    · exact ⟨"Unknown", by decide, rfl, rfl⟩
    · exact ⟨"Point", by decide, rfl, rfl⟩
    · exact ⟨"LineString", by decide, rfl, rfl⟩
    · exact ⟨"Polygon", by decide, rfl, rfl⟩
  · intro a b c ht hg
    rw [ht, hg]
    rfl

theorem featureToGeoJSON_multi_part_witness :
    (∃ name : String,
      ["Unknown", "Point", "LineString", "Polygon"].get?
          (TileFeature.mk 2 [JSVal.arr [], JSVal.arr [], JSVal.arr []] JSVal.null).type.toNat
        = some name ∧
      (featureToGeoJSON ⟨2, [JSVal.arr [], JSVal.arr [], JSVal.arr []], JSVal.null⟩).geometry.type
        = JSVal.str ("Multi" ++ name) ∧
      (featureToGeoJSON ⟨2, [JSVal.arr [], JSVal.arr [], JSVal.arr []], JSVal.null⟩).geometry.coordinates
        = JSVal.arr [JSVal.arr [], JSVal.arr [], JSVal.arr []]) ∧
    (featureToGeoJSON ⟨2, [JSVal.arr [], JSVal.arr [], JSVal.arr []], JSVal.null⟩).geometry =
      { type := JSVal.str "MultiLineString"
        coordinates := JSVal.arr [JSVal.arr [], JSVal.arr [], JSVal.arr []] } :=
  ⟨(featureToGeoJSON_multi_part ⟨2, [JSVal.arr [], JSVal.arr [], JSVal.arr []], JSVal.null⟩
      (by decide) (by decide) (by decide)).1,
    (featureToGeoJSON_multi_part ⟨2, [JSVal.arr [], JSVal.arr [], JSVal.arr []], JSVal.null⟩
      (by decide) (by decide) (by decide)).2 _ _ _ rfl rfl⟩

/-- C3: whatever the type code and the part count of a tile feature, the result of
`featureToGeoJSON` has type Feature and its properties are the feature's tags. -/
theorem featureToGeoJSON_type_properties (f : TileFeature) :
    (featureToGeoJSON f).type = "Feature" ∧ (featureToGeoJSON f).properties = f.tags := by
  by_cases h : f.geometry.length = 1
  · simp [featureToGeoJSON, h]
  · simp [featureToGeoJSON, h]

theorem vectorTileToGeoJSON_loop (fs : List TileFeature) (acc : List GeoJSONFeature) :
    fs.foldl (fun result feature => result ++ [featureToGeoJSON feature]) acc
      = acc ++ fs.map featureToGeoJSON := by
  induction fs generalizing acc with
  | nil => simp
  | cons f fs ih => simp [ih]

/-- C7: `vectorTileToGeoJSON` is the order-preserving map of `featureToGeoJSON` over
the payload's features: same length, the element at each index is the image of the
input feature at that index, and an empty payload gives an empty list. -/
theorem vectorTileToGeoJSON_map (tile : Tile) :
    vectorTileToGeoJSON tile = tile.features.map featureToGeoJSON ∧
    (vectorTileToGeoJSON tile).length = tile.features.length ∧
    (∀ i : Nat, (vectorTileToGeoJSON tile).get? i
      = (tile.features.get? i).map featureToGeoJSON) ∧
    vectorTileToGeoJSON { features := [] } = [] := by
  have h : vectorTileToGeoJSON tile = tile.features.map featureToGeoJSON := by
    simp [vectorTileToGeoJSON, vectorTileToGeoJSON_loop]
  refine ⟨h, ?_, ?_, rfl⟩
  · rw [h, List.length_map]
  · intro i
    rw [h]
    simp

theorem arrayGet_types_name (c : Int) (h0 : 0 ≤ c) (h3 : c ≤ 3) :
    (c = 0 ∧ arrayGet types c = some "Unknown") ∨
    (c = 1 ∧ arrayGet types c = some "Point") ∨
    (c = 2 ∧ arrayGet types c = some "LineString") ∨
    (c = 3 ∧ arrayGet types c = some "Polygon") := by
  rcases arrayGet_types_cases c h0 h3 with h | h | h | h <;> subst h
  · exact Or.inl ⟨rfl, rfl⟩
  · exact Or.inr (Or.inl ⟨rfl, rfl⟩)
  · exact Or.inr (Or.inr (Or.inl ⟨rfl, rfl⟩))
  · exact Or.inr (Or.inr (Or.inr ⟨rfl, rfl⟩))

/-- The four base names and their four Multi forms are pairwise distinct. -/
theorem type_names_nodup :
    (types ++ types.map (fun name => "Multi" ++ name)).Nodup := by decide

/-- C9: `featureToGeoJSON` is injective on features whose type code is in 0..3: two
such features (type code, part sequence, tags) with equal outputs are equal. -/
theorem featureToGeoJSON_injective (f g : TileFeature)
    (hf0 : 0 ≤ f.type) (hf3 : f.type ≤ 3) (hg0 : 0 ≤ g.type) (hg3 : g.type ≤ 3)
    (h : featureToGeoJSON f = featureToGeoJSON g) : f = g := by
  obtain ⟨c, ps, t⟩ := f
  obtain ⟨d, qs, u⟩ := g
  simp only at hf0 hf3 hg0 hg3
  by_cases hp : ps.length = 1 <;> by_cases hq : qs.length = 1
  · obtain ⟨p, rfl⟩ := List.length_eq_one.mp hp
    obtain ⟨q, rfl⟩ := List.length_eq_one.mp hq
    rw [featureToGeoJSON_single _ p rfl, featureToGeoJSON_single _ q rfl] at h
    simp only [GeoJSONFeature.mk.injEq, Geometry.mk.injEq, true_and] at h
    obtain ⟨⟨hty, rfl⟩, rfl⟩ := h
    rcases arrayGet_types_name c hf0 hf3 with ⟨rfl, e⟩ | ⟨rfl, e⟩ | ⟨rfl, e⟩ | ⟨rfl, e⟩ <;>
      rcases arrayGet_types_name d hg0 hg3 with ⟨rfl, e'⟩ | ⟨rfl, e'⟩ | ⟨rfl, e'⟩ | ⟨rfl, e'⟩ <;>
      first
        | rfl
        | (simp only [e, e', Option.map_some', JSVal.ofOption, JSVal.str.injEq] at hty
           exact absurd hty (by decide))
  · rw [featureToGeoJSON_single_of_length _ hp, featureToGeoJSON_multi _ hq] at h
    simp only [GeoJSONFeature.mk.injEq, Geometry.mk.injEq, true_and] at h
    obtain ⟨⟨hty, -⟩, -⟩ := h
    rcases arrayGet_types_name c hf0 hf3 with ⟨rfl, e⟩ | ⟨rfl, e⟩ | ⟨rfl, e⟩ | ⟨rfl, e⟩ <;>
      rcases arrayGet_types_name d hg0 hg3 with ⟨rfl, e'⟩ | ⟨rfl, e'⟩ | ⟨rfl, e'⟩ | ⟨rfl, e'⟩ <;>
      (simp only [e, e', Option.map_some', JSVal.ofOption, JSVal.str.injEq, templateSubst] at hty
       exact absurd hty (by decide))
  · rw [featureToGeoJSON_multi _ hp, featureToGeoJSON_single_of_length _ hq] at h
    simp only [GeoJSONFeature.mk.injEq, Geometry.mk.injEq, true_and] at h
    obtain ⟨⟨hty, -⟩, -⟩ := h
    rcases arrayGet_types_name c hf0 hf3 with ⟨rfl, e⟩ | ⟨rfl, e⟩ | ⟨rfl, e⟩ | ⟨rfl, e⟩ <;>
      rcases arrayGet_types_name d hg0 hg3 with ⟨rfl, e'⟩ | ⟨rfl, e'⟩ | ⟨rfl, e'⟩ | ⟨rfl, e'⟩ <;>
      (simp only [e, e', Option.map_some', JSVal.ofOption, JSVal.str.injEq, templateSubst] at hty
       exact absurd hty (by decide))
  · rw [featureToGeoJSON_multi _ hp, featureToGeoJSON_multi _ hq] at h
    simp only [GeoJSONFeature.mk.injEq, Geometry.mk.injEq, true_and, JSVal.arr.injEq] at h
    obtain ⟨⟨hty, rfl⟩, rfl⟩ := h
    rcases arrayGet_types_name c hf0 hf3 with ⟨rfl, e⟩ | ⟨rfl, e⟩ | ⟨rfl, e⟩ | ⟨rfl, e⟩ <;>
      rcases arrayGet_types_name d hg0 hg3 with ⟨rfl, e'⟩ | ⟨rfl, e'⟩ | ⟨rfl, e'⟩ | ⟨rfl, e'⟩ <;>
      first
        | rfl
        | (simp only [e, e', JSVal.str.injEq, templateSubst] at hty
           exact absurd hty (by decide))

theorem featureToGeoJSON_injective_witness :
    (0 : Int) ≤ (TileFeature.mk 1 [JSVal.arr [JSVal.num 5, JSVal.num 7]] JSVal.null).type ∧
    (TileFeature.mk 1 [JSVal.arr [JSVal.num 5, JSVal.num 7]] JSVal.null).type ≤ 3 ∧
    featureToGeoJSON ⟨1, [JSVal.arr [JSVal.num 5, JSVal.num 7]], JSVal.null⟩
      = featureToGeoJSON ⟨1, [JSVal.arr [JSVal.num 5, JSVal.num 7]], JSVal.null⟩ ∧
    (TileFeature.mk 1 [JSVal.arr [JSVal.num 5, JSVal.num 7]] JSVal.null)
      = ⟨1, [JSVal.arr [JSVal.num 5, JSVal.num 7]], JSVal.null⟩ :=
  ⟨by decide, by decide, rfl,
    featureToGeoJSON_injective _ _ (by decide) (by decide) (by decide) (by decide) rfl⟩

/-! ## The tile query: `getTileData` -/

/-- C6: `getTileData` returns `null` exactly when no index is loaded or the index's
`getTile(z, x, y)` returns `null`; otherwise it returns `vectorTileToGeoJSON` of the
payload that `getTile` returned, the arguments being passed in the order z, x, y. -/
theorem getTileData_eq (tileIndex : Option Index) (tile : TileID) :
    getTileData tileIndex tile
      = (tileIndex.bind (fun index => index.getTile tile.z tile.x tile.y)).map
          vectorTileToGeoJSON ∧
    (getTileData tileIndex tile = none ↔
      (tileIndex = none ∨
        ∃ index, tileIndex = some index ∧ index.getTile tile.z tile.x tile.y = none)) := by
  cases tileIndex with
  | none => simp [getTileData]
  | some index =>
    cases hg : index.getTile tile.z tile.x tile.y with
    | none => simp [getTileData, hg]
    | some tileData => simp [getTileData, hg]

/-! ## The placement transform -/

/-- C4: over exact rationals the placement computed in `renderSubLayers` for a tile
(z, x, y) has horizontal scale 512 / 2^z / 4096, vertical scale its negation, origin
(512 * x / 2^z, 512 * (1 - y / 2^z)), and third components scale 1, offset 0. -/
theorem renderSubLayers_placement (x y : Int) (z : Nat) :
    renderSubLayers { x := x, y := y, z := z } =
      { scale := (512 / 2 ^ z / 4096, -(512 / 2 ^ z / 4096), 1)
        coordinateOrigin := (512 * (x : ℚ) / 2 ^ z, 512 * (1 - (y : ℚ) / 2 ^ z), 0) } := by
  simp [renderSubLayers, WORLD_SIZE, EXTENT]

theorem two_pow_pos_rat (z : Nat) : (0 : ℚ) < 2 ^ z := by positivity

theorem int_lt_two_pow_cast (x : Int) (z : Nat) (h : x < 2 ^ z) : (x : ℚ) + 1 ≤ 2 ^ z := by
  have h1 : x + 1 ≤ 2 ^ z := by omega
  have h2 : ((x + 1 : Int) : ℚ) ≤ ((2 ^ z : Int) : ℚ) := by exact_mod_cast h1
  push_cast at h2
  exact h2

/-- C10: adjacent tiles meet without gap or overlap. Over exact rationals, for every
tile (z, x, y): the horizontal origin plus the horizontal scale times the extent 4096
is the horizontal origin of tile (z, x+1, y), and likewise vertically for tile
(z, x, y+1); the world position of local coordinate 4096 equals the world position of
local coordinate 0 in the next tile on each axis; when 0 ≤ x, y < 2^z every local
coordinate in [0, 4096] is placed in the world range [0, 512]; the horizontal scale
is positive and the vertical scale negative, a tile spanning 512 / 2^z on each axis;
no overlap: a local coordinate in [0, 4096) of a tile is placed strictly before every
local coordinate from 0 on of a tile further along the axis; no gap: every world
coordinate between the origin of a tile and that of the next is the position of a
local coordinate in [0, 4096] of the tile. -/
theorem renderSubLayers_adjacent (x y : Int) (z : Nat) :
    ((renderSubLayers ⟨x, y, z⟩).coordinateOrigin.1
        + (renderSubLayers ⟨x, y, z⟩).scale.1 * 4096
      = (renderSubLayers ⟨x + 1, y, z⟩).coordinateOrigin.1) ∧
    ((renderSubLayers ⟨x, y, z⟩).coordinateOrigin.2.1
        + (renderSubLayers ⟨x, y, z⟩).scale.2.1 * 4096
      = (renderSubLayers ⟨x, y + 1, z⟩).coordinateOrigin.2.1) ∧
    (∀ v w : ℚ, ((renderSubLayers ⟨x, y, z⟩).toWorld (4096, v, w)).1
      = ((renderSubLayers ⟨x + 1, y, z⟩).toWorld (0, v, w)).1) ∧
    (∀ u w : ℚ, ((renderSubLayers ⟨x, y, z⟩).toWorld (u, 4096, w)).2.1
      = ((renderSubLayers ⟨x, y + 1, z⟩).toWorld (u, 0, w)).2.1) ∧
    (0 ≤ x → x < 2 ^ z → 0 ≤ y → y < 2 ^ z →
      ∀ u v w : ℚ, 0 ≤ u → u ≤ 4096 → 0 ≤ v → v ≤ 4096 →
        0 ≤ ((renderSubLayers ⟨x, y, z⟩).toWorld (u, v, w)).1 ∧
        ((renderSubLayers ⟨x, y, z⟩).toWorld (u, v, w)).1 ≤ 512 ∧
        0 ≤ ((renderSubLayers ⟨x, y, z⟩).toWorld (u, v, w)).2.1 ∧
        ((renderSubLayers ⟨x, y, z⟩).toWorld (u, v, w)).2.1 ≤ 512) ∧
    (0 < (renderSubLayers ⟨x, y, z⟩).scale.1 ∧
      (renderSubLayers ⟨x, y, z⟩).scale.2.1 < 0 ∧
      (renderSubLayers ⟨x, y, z⟩).scale.1 * 4096 = 512 / 2 ^ z ∧
      (renderSubLayers ⟨x, y, z⟩).scale.2.1 * 4096 = -(512 / 2 ^ z)) ∧
    (∀ (x2 y2 : Int) (u v w u2 v2 w2 : ℚ), x < x2 → 0 ≤ u → u < 4096 → 0 ≤ u2 →
      ((renderSubLayers ⟨x, y, z⟩).toWorld (u, v, w)).1
        < ((renderSubLayers ⟨x2, y2, z⟩).toWorld (u2, v2, w2)).1) ∧
    (∀ (x2 y2 : Int) (u v w u2 v2 w2 : ℚ), y < y2 → 0 ≤ v → v < 4096 → 0 ≤ v2 →
      ((renderSubLayers ⟨x2, y2, z⟩).toWorld (u2, v2, w2)).2.1
        < ((renderSubLayers ⟨x, y, z⟩).toWorld (u, v, w)).2.1) ∧
    (∀ X : ℚ, (renderSubLayers ⟨x, y, z⟩).coordinateOrigin.1 ≤ X →
      X ≤ (renderSubLayers ⟨x + 1, y, z⟩).coordinateOrigin.1 →
      ∃ u : ℚ, 0 ≤ u ∧ u ≤ 4096 ∧
        ∀ v w : ℚ, ((renderSubLayers ⟨x, y, z⟩).toWorld (u, v, w)).1 = X) ∧
    (∀ Y : ℚ, (renderSubLayers ⟨x, y + 1, z⟩).coordinateOrigin.2.1 ≤ Y →
      Y ≤ (renderSubLayers ⟨x, y, z⟩).coordinateOrigin.2.1 →
      ∃ v : ℚ, 0 ≤ v ∧ v ≤ 4096 ∧
        ∀ u w : ℚ, ((renderSubLayers ⟨x, y, z⟩).toWorld (u, v, w)).2.1 = Y) := by
  have hP : (0 : ℚ) < 2 ^ z := two_pow_pos_rat z
  have hne : (2 : ℚ) ^ z ≠ 0 := ne_of_gt hP
  have e1 : ∀ (a : Int) (u : ℚ), 512 * (a : ℚ) / 2 ^ z + 512 / 2 ^ z / 4096 * u
      = (512 * a + u / 8) / 2 ^ z := by
    intro a u
    field_simp
    ring
  have e2 : ∀ (b : Int) (v : ℚ), 512 * (1 - (b : ℚ) / 2 ^ z) + -(512 / 2 ^ z / 4096) * v
      = (512 * (2 ^ z - b) - v / 8) / 2 ^ z := by
    intro b v
    field_simp
    ring
  have e3 : ∀ b : Int, 512 * (1 - (b : ℚ) / 2 ^ z) = (512 * (2 ^ z - b)) / 2 ^ z := by
    intro b
    field_simp
  simp only [renderSubLayers, Placement.toWorld, WORLD_SIZE, EXTENT]
  refine ⟨?_, ?_, ?_, ?_, ?_, ⟨?_, ?_, ?_, ?_⟩, ?_, ?_, ?_, ?_⟩
  · push_cast
    field_simp
    ring
  · push_cast
    field_simp
    ring
  · intro v w
    push_cast
    field_simp
    ring
  · intro u w
    push_cast
    field_simp
    ring
  · intro hx0 hx1 hy0 hy1 u v w hu0 hu1 hv0 hv1
    have hx0q : (0 : ℚ) ≤ x := by exact_mod_cast hx0
    have hy0q : (0 : ℚ) ≤ y := by exact_mod_cast hy0
    have hx1q : (x : ℚ) + 1 ≤ 2 ^ z := int_lt_two_pow_cast x z hx1
    have hy1q : (y : ℚ) + 1 ≤ 2 ^ z := int_lt_two_pow_cast y z hy1
    rw [e1, e2]
    refine ⟨?_, ?_, ?_, ?_⟩
    · apply div_nonneg _ hP.le
      linarith
    · rw [div_le_iff₀ hP]
      linarith
    · apply div_nonneg _ hP.le
      linarith
    · rw [div_le_iff₀ hP]
      linarith
  · positivity
  · have : (0 : ℚ) < 512 / 2 ^ z / 4096 := by positivity
    linarith
  · field_simp
    ring
  · field_simp
    ring
  · intro x2 y2 u v w u2 v2 w2 hx hu0 hu1 hu2
    have hxq : (x : ℚ) + 1 ≤ x2 := by exact_mod_cast (by omega : x + 1 ≤ x2)
    rw [e1, e1, div_lt_div_iff_of_pos_right hP]
    linarith
  · intro x2 y2 u v w u2 v2 w2 hy hv0 hv1 hv2
    have hyq : (y : ℚ) + 1 ≤ y2 := by exact_mod_cast (by omega : y + 1 ≤ y2)
    rw [e2, e2, div_lt_div_iff_of_pos_right hP]
    linarith
  · intro X h0 h1
    push_cast at h1
    rw [div_le_iff₀ hP] at h0
    rw [le_div_iff₀ hP] at h1
    refine ⟨(X * 2 ^ z - 512 * x) * 8, by linarith, by linarith, ?_⟩
    intro v w
    rw [e1]
    field_simp
  · intro Y h0 h1
    rw [e3, div_le_iff₀ hP] at h0
    rw [e3, le_div_iff₀ hP] at h1
    push_cast at h0
    refine ⟨(512 * (2 ^ z - y) - Y * 2 ^ z) * 8, by linarith, by linarith, ?_⟩
    intro u w
    rw [e2]
    field_simp

theorem renderSubLayers_adjacent_witness :
    (0 ≤ ((renderSubLayers ⟨1, 2, 2⟩).toWorld (100, 200, 0)).1 ∧
      ((renderSubLayers ⟨1, 2, 2⟩).toWorld (100, 200, 0)).1 ≤ 512 ∧
      0 ≤ ((renderSubLayers ⟨1, 2, 2⟩).toWorld (100, 200, 0)).2.1 ∧
      ((renderSubLayers ⟨1, 2, 2⟩).toWorld (100, 200, 0)).2.1 ≤ 512) ∧
    (((renderSubLayers ⟨1, 2, 2⟩).toWorld (4000, 0, 0)).1
      < ((renderSubLayers ⟨2, 2, 2⟩).toWorld (0, 0, 0)).1) ∧
    (((renderSubLayers ⟨1, 3, 2⟩).toWorld (0, 0, 0)).2.1
      < ((renderSubLayers ⟨1, 2, 2⟩).toWorld (0, 4000, 0)).2.1) ∧
    (∃ u : ℚ, 0 ≤ u ∧ u ≤ 4096 ∧
      ∀ v w : ℚ, ((renderSubLayers ⟨1, 2, 2⟩).toWorld (u, v, w)).1 = 200) ∧
    (∃ v : ℚ, 0 ≤ v ∧ v ≤ 4096 ∧
      ∀ u w : ℚ, ((renderSubLayers ⟨1, 2, 2⟩).toWorld (u, v, w)).2.1 = 200) :=
  ⟨(renderSubLayers_adjacent 1 2 2).2.2.2.2.1 (by decide) (by decide) (by decide) (by decide)
      100 200 0 (by norm_num) (by norm_num) (by norm_num) (by norm_num),
    (renderSubLayers_adjacent 1 2 2).2.2.2.2.2.2.1 2 2 4000 0 0 0 0 0
      (by decide) (by norm_num) (by norm_num) (by norm_num),
    (renderSubLayers_adjacent 1 2 2).2.2.2.2.2.2.2.1 1 3 0 4000 0 0 0 0
      (by decide) (by norm_num) (by norm_num) (by norm_num),
    (renderSubLayers_adjacent 1 2 2).2.2.2.2.2.2.2.2.1 200
      (by norm_num [renderSubLayers, WORLD_SIZE])
      (by norm_num [renderSubLayers, WORLD_SIZE]),
    (renderSubLayers_adjacent 1 2 2).2.2.2.2.2.2.2.2.2 200
      (by norm_num [renderSubLayers, WORLD_SIZE])
      (by norm_num [renderSubLayers, WORLD_SIZE])⟩

/-! ## Decimal renderings and `parseInt` -/

theorem digitChar_facts :
    ∀ d : Nat, d < 10 →
      isStrWhiteSpaceChar (Nat.digitChar d) = false ∧
      Nat.digitChar d ≠ '-' ∧ Nat.digitChar d ≠ '+' ∧ Nat.digitChar d ≠ '/' ∧
      Nat.digitChar d ≠ 'x' ∧ Nat.digitChar d ≠ 'X' ∧
      radixDigit 10 (Nat.digitChar d) = some d := by
  decide

theorem toDigitsCore_append (fuel n : Nat) (ds : List Char) :
    Nat.toDigitsCore 10 fuel n ds = Nat.toDigitsCore 10 fuel n [] ++ ds := by
  induction fuel generalizing n ds with
  | zero => simp [Nat.toDigitsCore]
  | succ fuel ih =>
    simp only [Nat.toDigitsCore]
    by_cases h : n / 10 = 0
    · simp [h]
    · simp only [h, if_false]
      rw [ih (n / 10) (Nat.digitChar (n % 10) :: ds), ih (n / 10) [Nat.digitChar (n % 10)]]
      simp

theorem toDigitsCore_digits (fuel n : Nat) (h : n < fuel) :
    ∃ ks : List Nat, ks ≠ [] ∧ (∀ k ∈ ks, k < 10) ∧
      Nat.toDigitsCore 10 fuel n [] = ks.map Nat.digitChar ∧
      ks.foldl (fun a k => a * 10 + k) 0 = n := by
  induction fuel generalizing n with
  | zero => omega
  | succ fuel ih =>
    simp only [Nat.toDigitsCore]
    by_cases h0 : n / 10 = 0
    · refine ⟨[n % 10], by simp, ?_, by simp [h0], ?_⟩
      · intro k hk
        simp only [List.mem_singleton] at hk
        omega
      · simp only [List.foldl_cons, List.foldl_nil]
        omega
    · obtain ⟨ks, hne, hlt, hks, hval⟩ := ih (n / 10) (by omega)
      refine ⟨ks ++ [n % 10], by simp, ?_, ?_, ?_⟩
      · intro k hk
        rcases List.mem_append.mp hk with hk | hk
        · exact hlt k hk
        · simp only [List.mem_singleton] at hk
          omega
      · simp only [h0, if_false]
        rw [toDigitsCore_append, hks]
        simp
      · rw [List.foldl_append, hval]
        simp only [List.foldl_cons, List.foldl_nil]
        omega

theorem toDigits_digits (n : Nat) :
    ∃ ks : List Nat, ks ≠ [] ∧ (∀ k ∈ ks, k < 10) ∧
      Nat.toDigits 10 n = ks.map Nat.digitChar ∧
      ks.foldl (fun a k => a * 10 + k) 0 = n :=
  toDigitsCore_digits (n + 1) n (Nat.lt_succ_self n)

theorem stripHexPrefix_digits (ks : List Nat) (hlt : ∀ k ∈ ks, k < 10) :
    stripHexPrefix (ks.map Nat.digitChar) = (10, ks.map Nat.digitChar) := by
  match ks, hlt with
  | [], _ => rfl
  | [k], _ =>
    unfold stripHexPrefix
    split <;> simp_all
  | k :: k2 :: rest, hlt =>
    have h2 := digitChar_facts k2 (hlt k2 (by simp))
    unfold stripHexPrefix
    split
    · rename_i heq
      simp only [List.map_cons, List.cons.injEq] at heq
      exact absurd heq.2.1 h2.2.2.2.2.1
    · rename_i heq
      simp only [List.map_cons, List.cons.injEq] at heq
      exact absurd heq.2.1 h2.2.2.2.2.2.1
    · rfl

theorem foldl_digits (ks : List Nat) (hlt : ∀ k ∈ ks, k < 10) (acc : Nat) :
    (ks.map Nat.digitChar).foldl (fun acc c => acc * 10 + (radixDigit 10 c).getD 0) acc
      = ks.foldl (fun a k => a * 10 + k) acc := by
  induction ks generalizing acc with
  | nil => rfl
  | cons k ks ih =>
    simp only [List.map_cons, List.foldl_cons]
    rw [(digitChar_facts k (hlt k (by simp))).2.2.2.2.2.2]
    exact ih (fun j hj => hlt j (by simp [hj])) _

theorem takeWhile_digits (ks : List Nat) (hlt : ∀ k ∈ ks, k < 10) :
    (ks.map Nat.digitChar).takeWhile (fun c => (radixDigit 10 c).isSome)
      = ks.map Nat.digitChar := by
  rw [List.takeWhile_eq_self_iff]
  intro c hc
  obtain ⟨k, hk, rfl⟩ := List.mem_map.mp hc
  rw [(digitChar_facts k (hlt k hk)).2.2.2.2.2.2]
  rfl


/-! ## Doubles: rounding and rendering of safe integers -/

theorem roundToDouble_safe (n : Nat) (h : n < 2 ^ 53) : roundToDouble n = some n := by
  unfold roundToDouble
  rw [if_pos h]

theorem excessBits_spec (fuel n : Nat) (hn : 2 ^ 53 ≤ n) (hf : 1 ≤ fuel) :
    1 ≤ excessBits fuel n ∧ 2 ^ 52 * 2 ^ excessBits fuel n ≤ n := by
  induction fuel generalizing n with
  | zero => omega
  | succ fuel ih =>
    have hlt : ¬ n < 2 ^ 53 := by omega
    simp only [excessBits, hlt, if_false]
    refine ⟨by omega, ?_⟩
    by_cases h2 : 2 ^ 53 ≤ n / 2 ∧ 1 ≤ fuel
    · have := (ih (n / 2) h2.1 h2.2).2
      rw [pow_succ]
      omega
    · have h0 : excessBits fuel (n / 2) = 0 := by
        cases fuel with
        | zero => rfl
        | succ f =>
          have : n / 2 < 2 ^ 53 := by omega
          simp only [excessBits, this, if_true]
      rw [h0]
      norm_num
      omega

theorem roundToDouble_large (n v : Nat) (hn : 2 ^ 53 ≤ n) (h : roundToDouble n = some v) :
    2 ^ 53 ≤ v := by
  have hlt : ¬ n < 2 ^ 53 := by omega
  have hpos : 1 ≤ n := by
    have : 0 < 2 ^ 53 := by norm_num
    omega
  obtain ⟨he1, he2⟩ := excessBits_spec n n hn hpos
  have hq : 2 ^ 52 ≤ n / 2 ^ excessBits n n :=
    (Nat.le_div_iff_mul_le (by positivity)).mpr he2
  have hpow : 2 ≤ 2 ^ excessBits n n := by
    calc 2 = 2 ^ 1 := by norm_num
      _ ≤ 2 ^ excessBits n n := Nat.pow_le_pow_right (by norm_num) he1
  have key : ∀ q1 : Nat, n / 2 ^ excessBits n n ≤ q1 → 2 ^ 53 ≤ q1 * 2 ^ excessBits n n := by
    intro q1 hq1
    calc 2 ^ 53 = 2 ^ 52 * 2 := by norm_num
      _ ≤ q1 * 2 ^ excessBits n n := Nat.mul_le_mul (le_trans hq hq1) hpow
  unfold roundToDouble at h
  rw [if_neg hlt] at h
  dsimp only at h
  split_ifs at h <;>
    (rw [← Option.some.inj h]
     first
       | exact key _ le_rfl
       | exact key _ (Nat.le_succ _))

/-- An integer that rounds to a double below 2^53 is that double. -/
theorem roundToDouble_eq_safe (v x : Nat) (hx : x < 2 ^ 53) (h : roundToDouble v = some x) :
    v = x := by
  by_cases hv : v < 2 ^ 53
  · rw [roundToDouble_safe v hv] at h
    exact Option.some.inj h
  · have := roundToDouble_large v x (by omega) h
    omega

theorem shortestAt_rounds (x e v : Nat) (h : shortestAt x e = some v) :
    roundToDouble v = some x := by
  unfold shortestAt at h
  dsimp only at h
  split at h
  · rename_i h1 _
    simp only [Option.some.injEq] at h
    rw [← h]
    exact of_decide_eq_true h1
  · rename_i _ h2
    simp only [Option.some.injEq] at h
    rw [← h]
    exact of_decide_eq_true h2
  · rename_i h1 h2
    split at h
    · simp only [Option.some.injEq] at h
      rw [← h]
      exact of_decide_eq_true h1
    · simp only [Option.some.injEq] at h
      rw [← h]
      exact of_decide_eq_true h2
  · exact absurd h (by simp)

/-- The shortest decimal of a safe integer is the integer itself. -/
theorem shortestDecimal_safe (x : Nat) (hx : x < 2 ^ 53) : shortestDecimal x = x := by
  unfold shortestDecimal
  cases hf : (List.range (Nat.toDigits 10 x).length).reverse.findSome? (shortestAt x) with
  | none => rfl
  | some v =>
    obtain ⟨e, -, he⟩ := List.exists_of_findSome?_eq_some hf
    exact roundToDouble_eq_safe v x hx (shortestAt_rounds x e v he)

/-- An integer that rounds to a double below 10^21 is itself below 10^21 (10^21 is a
double, and a multiple of every power of two up to 2^21). -/
theorem roundToDouble_lt (v x : Nat) (hx : x < 10 ^ 21) (h : roundToDouble v = some x) :
    v < 10 ^ 21 := by
  by_contra hv
  have hv1 : 10 ^ 21 ≤ v := by omega
  have hn : 2 ^ 53 ≤ v := le_trans (by norm_num) hv1
  have hlt : ¬ v < 2 ^ 53 := by omega
  obtain ⟨-, he2⟩ := excessBits_spec v v hn (le_trans (by norm_num) hn)
  have hq : 2 ^ 52 ≤ v / 2 ^ excessBits v v :=
    (Nat.le_div_iff_mul_le (by positivity)).mpr he2
  have key : ∀ q1 : Nat, v / 2 ^ excessBits v v ≤ q1 → 10 ^ 21 ≤ q1 * 2 ^ excessBits v v := by
    intro q1 hq1
    by_cases he : excessBits v v ≤ 21
    · have hdvd : 2 ^ excessBits v v ∣ 10 ^ 21 :=
        dvd_trans (pow_dvd_pow 2 he) ⟨5 ^ 21, by norm_num⟩
      calc 10 ^ 21 = 10 ^ 21 / 2 ^ excessBits v v * 2 ^ excessBits v v :=
            (Nat.div_mul_cancel hdvd).symm
        _ ≤ v / 2 ^ excessBits v v * 2 ^ excessBits v v :=
            Nat.mul_le_mul_right _ (Nat.div_le_div_right hv1)
        _ ≤ q1 * 2 ^ excessBits v v := Nat.mul_le_mul_right _ hq1
    · have hpow : 2 ^ 22 ≤ 2 ^ excessBits v v :=
        Nat.pow_le_pow_right (by norm_num) (by omega)
      calc 10 ^ 21 ≤ 2 ^ 52 * 2 ^ 22 := by norm_num
        _ ≤ q1 * 2 ^ excessBits v v := Nat.mul_le_mul (le_trans hq hq1) hpow
  unfold roundToDouble at h
  rw [if_neg hlt] at h
  dsimp only at h
  split_ifs at h <;>
    (have hk : 10 ^ 21 ≤ x := by
       rw [← Option.some.inj h]
       first
         | exact key _ le_rfl
         | exact key _ (Nat.le_succ _)
     omega)

/-- The shortest decimal of a double rounds back to it. -/
theorem shortestDecimal_rounds (x : Nat) (hx : roundToDouble x = some x) :
    roundToDouble (shortestDecimal x) = some x := by
  unfold shortestDecimal
  cases hf : (List.range (Nat.toDigits 10 x).length).reverse.findSome? (shortestAt x) with
  | none => exact hx
  | some v =>
    obtain ⟨e, -, he⟩ := List.exists_of_findSome?_eq_some hf
    exact shortestAt_rounds x e v he

/-- A double below 10^21 is rendered as the plain digits of its shortest decimal. -/
theorem nonNegToString_plain (x : Nat) (hd : roundToDouble x = some x) (hx : x < 10 ^ 21) :
    nonNegToString x = Nat.toDigits 10 (shortestDecimal x) := by
  have hv : shortestDecimal x < 10 ^ 21 :=
    roundToDouble_lt _ x hx (shortestDecimal_rounds x hd)
  have hlen : (Nat.toDigits 10 (shortestDecimal x)).length ≤ 21 :=
    Nat.repr_length (shortestDecimal x) 21 (by norm_num) hv
  simp only [nonNegToString, hlen, if_true]

/-- A safe integer (below 2^53) is a double and is rendered as its own decimal
digits. -/
theorem nonNegToString_safe (x : Nat) (hx : x < 2 ^ 53) :
    roundToDouble x = some x ∧ nonNegToString x = Nat.toDigits 10 x := by
  have hd := roundToDouble_safe x hx
  refine ⟨hd, ?_⟩
  rw [nonNegToString_plain x hd (lt_trans hx (by norm_num)), shortestDecimal_safe x hx]

/-! ## Round trip of a number through its rendering -/

theorem parseInt_digits (ks : List Nat) (hne : ks ≠ []) (hlt : ∀ k ∈ ks, k < 10) (w : Nat)
    (hw : roundToDouble (ks.foldl (fun a k => a * 10 + k) 0) = some w) :
    parseInt (ks.map Nat.digitChar) = Num.int w := by
  obtain ⟨k, rest, rfl⟩ := List.exists_cons_of_ne_nil hne
  have hk := digitChar_facts k (hlt k (by simp))
  have hdrop : (List.map Nat.digitChar (k :: rest)).dropWhile isStrWhiteSpaceChar
      = List.map Nat.digitChar (k :: rest) := by
    simp [List.dropWhile, hk.1]
  have hhead : (List.map Nat.digitChar (k :: rest)).head? = some (Nat.digitChar k) := rfl
  have hstrip := stripHexPrefix_digits (k :: rest) hlt
  have htake := takeWhile_digits (k :: rest) hlt
  have hfold := foldl_digits (k :: rest) hlt 0
  simp only [parseInt, hdrop, hhead, Option.some.injEq, hk.2.1, hk.2.2.1, or_self, if_false,
    hstrip, htake]
  rw [if_neg (by simp), hfold, hw]
  simp

theorem parseInt_neg_digits (ks : List Nat) (hne : ks ≠ []) (hlt : ∀ k ∈ ks, k < 10) (w : Nat)
    (hw : roundToDouble (ks.foldl (fun a k => a * 10 + k) 0) = some w) :
    parseInt ('-' :: ks.map Nat.digitChar) = Num.int (-(w : Int)) := by
  have hdrop : ('-' :: ks.map Nat.digitChar).dropWhile isStrWhiteSpaceChar
      = '-' :: ks.map Nat.digitChar := by
    rw [List.dropWhile_cons]
    rfl
  have hstrip := stripHexPrefix_digits ks hlt
  have htake := takeWhile_digits ks hlt
  have hfold := foldl_digits ks hlt 0
  simp only [parseInt, hdrop, List.head?_cons, or_true, if_true, List.tail_cons, hstrip, htake]
  rw [if_neg (by simpa using hne), hfold, hw]
  simp

/-- Parsing the rendering of an integer-valued double below 10^21 in absolute value
gives that number back. -/
theorem parseInt_numberToString (x : Int)
    (hd : roundToDouble x.natAbs = some x.natAbs) (hx : x.natAbs < 10 ^ 21) :
    parseInt (numberToString x) = Num.int x := by
  cases x with
  | ofNat m =>
    have hdm : roundToDouble m = some m := hd
    have hm : m < 10 ^ 21 := hx
    obtain ⟨ks, hne, hlt, hks, hval⟩ := toDigits_digits (shortestDecimal m)
    simp only [numberToString]
    rw [nonNegToString_plain m hdm hm, hks,
      parseInt_digits ks hne hlt m (by rw [hval]; exact shortestDecimal_rounds m hdm)]
    rfl
  | negSucc m =>
    have hdm : roundToDouble (m + 1) = some (m + 1) := hd
    have hm : m + 1 < 10 ^ 21 := hx
    obtain ⟨ks, hne, hlt, hks, hval⟩ := toDigits_digits (shortestDecimal (m + 1))
    simp only [numberToString]
    rw [nonNegToString_plain (m + 1) hdm hm, hks,
      parseInt_neg_digits ks hne hlt (m + 1)
        (by rw [hval]; exact shortestDecimal_rounds (m + 1) hdm)]
    rfl

/-- The rendering of an integer-valued double below 10^21 contains no slash. -/
theorem slash_not_mem_numberToString (x : Int)
    (hd : roundToDouble x.natAbs = some x.natAbs) (hx : x.natAbs < 10 ^ 21) :
    '/' ∉ numberToString x := by
  cases x with
  | ofNat m =>
    have hdm : roundToDouble m = some m := hd
    have hm : m < 10 ^ 21 := hx
    obtain ⟨ks, -, hlt, hks, -⟩ := toDigits_digits (shortestDecimal m)
    simp only [numberToString]
    rw [nonNegToString_plain m hdm hm, hks]
    intro hmem
    obtain ⟨k, hk, hc⟩ := List.mem_map.mp hmem
    exact (digitChar_facts k (hlt k hk)).2.2.2.1 hc
  | negSucc m =>
    have hdm : roundToDouble (m + 1) = some (m + 1) := hd
    have hm : m + 1 < 10 ^ 21 := hx
    obtain ⟨ks, -, hlt, hks, -⟩ := toDigits_digits (shortestDecimal (m + 1))
    simp only [numberToString]
    rw [nonNegToString_plain (m + 1) hdm hm, hks]
    intro hmem
    rcases List.mem_cons.mp hmem with h | h
    · exact absurd h (by decide)
    · obtain ⟨k, hk, hc⟩ := List.mem_map.mp h
      exact (digitChar_facts k (hlt k hk)).2.2.2.1 hc

theorem splitOn_tileURL (x y z : Int)
    (hx : '/' ∉ numberToString x) (hy : '/' ∉ numberToString y) (hz : '/' ∉ numberToString z) :
    (tileURL x y z).toList.splitOn '/'
      = [numberToString x, numberToString y, numberToString z] := by
  have h : (tileURL x y z).toList
      = ['/'].intercalate [numberToString x, numberToString y, numberToString z] := by
    simp [tileURL, List.intercalate]
  rw [h]
  apply List.splitOn_intercalate
  · intro l hl
    simp only [List.mem_cons, List.mem_singleton, List.not_mem_nil, or_false] at hl
    rcases hl with rfl | rfl | rfl
    · exact hx
    · exact hy
    · exact hz
  · simp

/-- The query made for the identifier rendered from integer-valued doubles x, y, z
below 10^21 in absolute value is the query for the tile object with those numbers. -/
theorem fetchData_tileURL (tileIndex : Option Index) (x y z : Int)
    (hdx : roundToDouble x.natAbs = some x.natAbs) (hx : x.natAbs < 10 ^ 21)
    (hdy : roundToDouble y.natAbs = some y.natAbs) (hy : y.natAbs < 10 ^ 21)
    (hdz : roundToDouble z.natAbs = some z.natAbs) (hz : z.natAbs < 10 ^ 21) :
    fetchData tileIndex (tileURL x y z)
      = getTileData tileIndex { x := Num.int x, y := Num.int y, z := Num.int z } := by
  simp only [fetchData, splitOn_tileURL x y z (slash_not_mem_numberToString x hdx hx)
    (slash_not_mem_numberToString y hdy hy) (slash_not_mem_numberToString z hdz hz)]
  have h0 : arrayGet [numberToString x, numberToString y, numberToString z] 0
      = some (numberToString x) := rfl
  have h1 : arrayGet [numberToString x, numberToString y, numberToString z] 1
      = some (numberToString y) := rfl
  have h2 : arrayGet [numberToString x, numberToString y, numberToString z] 2
      = some (numberToString z) := rfl
  rw [h0, h1, h2]
  simp only [slotToString, parseInt_numberToString x hdx hx, parseInt_numberToString y hdy hy,
    parseInt_numberToString z hdz hz]

theorem getTileData_bind (tileIndex : Option Index) (tile : TileID) :
    getTileData tileIndex tile
      = (tileIndex.bind (fun index => index.getTile tile.z tile.x tile.y)).map
          vectorTileToGeoJSON := by
  cases tileIndex with
  | none => rfl
  | some index =>
    cases hg : index.getTile tile.z tile.x tile.y with
    | none => simp [getTileData, hg]
    | some tileData => simp [getTileData, hg]

/-- C8 (as stated, refuted): the number 10^21 is a double and is rendered in exponent form, so the
identifier of tile (x, y, z) = (10^21, 0, 1) is `1e+21/0/1`; `fetchData` reads x = 1
from it and queries `getTile(1, 1, 0)`, while `getTileData` on the tile object
queries `getTile(1, 10^21, 0)`. On an index that serves only column x = 1 the first
returns a feature list and the second `null`. -/
theorem fetchData_roundtrip_counterexample :
    roundToDouble (10 ^ 21) = some (10 ^ 21) ∧
    tileURL ((10 ^ 21 : Nat) : Int) ((0 : Nat) : Int) ((1 : Nat) : Int) = "1e+21/0/1" ∧
    (fetchData
        (some { getTile := fun _ x _ => if x = Num.int 1 then some { features := [] } else none })
        (tileURL ((10 ^ 21 : Nat) : Int) ((0 : Nat) : Int) ((1 : Nat) : Int))).isSome = true ∧
    getTileData
        (some { getTile := fun _ x _ => if x = Num.int 1 then some { features := [] } else none })
        { x := Num.int ((10 ^ 21 : Nat) : Int), y := Num.int ((0 : Nat) : Int),
          z := Num.int ((1 : Nat) : Int) } = none ∧
    fetchData
        (some { getTile := fun _ x _ => if x = Num.int 1 then some { features := [] } else none })
        (tileURL ((10 ^ 21 : Nat) : Int) ((0 : Nat) : Int) ((1 : Nat) : Int))
      ≠ getTileData
        (some { getTile := fun _ x _ => if x = Num.int 1 then some { features := [] } else none })
        { x := Num.int ((10 ^ 21 : Nat) : Int), y := Num.int ((0 : Nat) : Int),
          z := Num.int ((1 : Nat) : Int) } := by
  refine ⟨by decide, by decide, by decide, rfl, ?_⟩
  intro h
  have h1 : (fetchData
      (some { getTile := fun _ x _ => if x = Num.int 1 then some { features := [] } else none })
      (tileURL ((10 ^ 21 : Nat) : Int) ((0 : Nat) : Int) ((1 : Nat) : Int))).isSome = true := by
    decide
  rw [h] at h1
  exact absurd h1 (by decide)

/-- C8 (amended): tile identifier round trip. For all non-negative integers x, y, z
that are doubles below 10^21 (every integer below 2^53 is one), applying `fetchData`
to the renderings of x, y, z joined by slashes gives the same result as `getTileData`
on the tile object with these x, y, z: the index is queried with `getTile(z, x, y)`
for exactly the integers that were rendered. -/
theorem fetchData_roundtrip (tileIndex : Option Index) (x y z : Nat)
    (hdx : roundToDouble x = some x) (hx : x < 10 ^ 21)
    (hdy : roundToDouble y = some y) (hy : y < 10 ^ 21)
    (hdz : roundToDouble z = some z) (hz : z < 10 ^ 21) :
    fetchData tileIndex (tileURL x y z)
      = getTileData tileIndex { x := Num.int x, y := Num.int y, z := Num.int z } ∧
    fetchData tileIndex (tileURL x y z)
      = (tileIndex.bind (fun index => index.getTile (Num.int z) (Num.int x) (Num.int y))).map
          vectorTileToGeoJSON := by
  have h := fetchData_tileURL tileIndex x y z hdx hx hdy hy hdz hz
  refine ⟨h, ?_⟩
  rw [h, getTileData_bind]

theorem fetchData_roundtrip_witness :
    (roundToDouble (2 ^ 60) = some (2 ^ 60) ∧ 2 ^ 60 < 10 ^ 21) ∧
    tileURL ((2 ^ 60 : Nat) : Int) ((5 : Nat) : Int) ((4 : Nat) : Int)
      = "1152921504606847000/5/4" ∧
    fetchData (some { getTile := fun _ _ _ => some { features := [] } })
        (tileURL ((2 ^ 60 : Nat) : Int) ((5 : Nat) : Int) ((4 : Nat) : Int))
      = getTileData (some { getTile := fun _ _ _ => some { features := [] } })
          { x := Num.int ((2 ^ 60 : Nat) : Int), y := Num.int ((5 : Nat) : Int),
            z := Num.int ((4 : Nat) : Int) } :=
  ⟨⟨by decide, by decide⟩, by decide,
    (fetchData_roundtrip (some { getTile := fun _ _ _ => some { features := [] } })
      (2 ^ 60) 5 4 (by decide) (by decide) (by decide) (by decide) (by decide) (by decide)).1⟩

/-- The spec-modelled index serves the stored tile at every valid coordinate. -/
theorem SpecIndex.getTile_valid (s : SpecIndex) (z x y : Nat)
    (hz : z ≤ s.maxZoom) (hx : x < 2 ^ z) (hy : y < 2 ^ z) :
    s.getTile (Num.int z) (Num.int x) (Num.int y) = s.tiles z x y := by
  have hx1 : (x : Int) < 2 ^ z := by exact_mod_cast hx
  have hy1 : (y : Int) < 2 ^ z := by exact_mod_cast hy
  have hz1 : (z : Int) ≤ s.maxZoom := by exact_mod_cast hz
  simp [SpecIndex.getTile, hx1, hy1, hz1]

/-- C5 (as stated, refuted on the identifier path): at zoom 1 the coordinate
(x, y) = (10^21, 0) violates 0 ≤ x < 2, yet its rendered identifier is `1e+21/0/1`,
which `fetchData` reads as the valid coordinate (1, 0) at zoom 1, and the query
returns a feature list. -/
theorem getTileData_out_of_range_counterexample :
    roundToDouble (10 ^ 21) = some (10 ^ 21) ∧
    ¬ ((0 : Int) ≤ 10 ^ 21 ∧ (10 ^ 21 : Int) < 2 ^ 1 ∧ (0 : Int) ≤ 0 ∧ (0 : Int) < 2 ^ 1) ∧
    tileURL (10 ^ 21) 0 ((1 : Nat) : Int) = "1e+21/0/1" ∧
    (fetchData
        ((some { maxZoom := 23, tiles := fun _ _ _ => some { features := [] } }
            : Option SpecIndex).map SpecIndex.toIndex)
        (tileURL (10 ^ 21) 0 ((1 : Nat) : Int))).isSome = true := by
  refine ⟨by decide, by decide, by decide, by decide⟩

/-- C5 (amended): for every zoom z and every coordinate (x, y) that violates
0 ≤ x, y < 2^z, the tile query returns `null` when made through `getTileData` on the
tile object, and when made through `fetchData` on any identifier whose three parsed
fields are x, y, z, in particular on the rendering of x, y, z when they are doubles
below 10^21 in absolute value; this whether or not an index is loaded, the index
being the one the spec describes, which validates its coordinates. -/
theorem getTileData_out_of_range (s : Option SpecIndex) (z : Nat) (x y : Int)
    (h : ¬ (0 ≤ x ∧ x < 2 ^ z ∧ 0 ≤ y ∧ y < 2 ^ z)) :
    getTileData (s.map SpecIndex.toIndex)
        { x := Num.int x, y := Num.int y, z := Num.int z } = none ∧
    (∀ url : String,
      parseInt (slotToString (arrayGet (url.toList.splitOn '/') 0)) = Num.int x →
      parseInt (slotToString (arrayGet (url.toList.splitOn '/') 1)) = Num.int y →
      parseInt (slotToString (arrayGet (url.toList.splitOn '/') 2)) = Num.int z →
      fetchData (s.map SpecIndex.toIndex) url = none) ∧
    (roundToDouble x.natAbs = some x.natAbs → x.natAbs < 10 ^ 21 →
      roundToDouble y.natAbs = some y.natAbs → y.natAbs < 10 ^ 21 →
      roundToDouble z = some z → z < 10 ^ 21 →
      fetchData (s.map SpecIndex.toIndex) (tileURL x y z) = none) := by
  have hq : getTileData (s.map SpecIndex.toIndex)
      { x := Num.int x, y := Num.int y, z := Num.int z } = none := by
    cases s with
    | none => rfl
    | some idx =>
      have hnone : idx.getTile (Num.int z) (Num.int x) (Num.int y) = none := by
        simp only [SpecIndex.getTile, Int.toNat_ofNat]
        rw [if_neg]
        intro hc
        exact h ⟨hc.2.2.1, hc.2.2.2.1, hc.2.2.2.2.1, hc.2.2.2.2.2⟩
      simp [getTileData, SpecIndex.toIndex, hnone]
  refine ⟨hq, ?_, ?_⟩
  · intro url h0 h1 h2
    simp only [fetchData, h0, h1, h2]
    exact hq
  · intro hdx hx hdy hy hdz hz
    rw [fetchData_tileURL _ x y z hdx hx hdy hy hdz hz]
    exact hq

theorem getTileData_out_of_range_witness :
    ¬ ((0 : Int) ≤ 2 ∧ (2 : Int) < 2 ^ 1 ∧ (0 : Int) ≤ 0 ∧ (0 : Int) < 2 ^ 1) ∧
    getTileData
        ((some { maxZoom := 23, tiles := fun _ _ _ => some { features := [] } }
            : Option SpecIndex).map SpecIndex.toIndex)
        { x := Num.int 2, y := Num.int 0, z := Num.int (1 : Nat) } = none ∧
    fetchData
        ((some { maxZoom := 23, tiles := fun _ _ _ => some { features := [] } }
            : Option SpecIndex).map SpecIndex.toIndex)
        " 2/0/1px" = none ∧
    fetchData
        ((some { maxZoom := 23, tiles := fun _ _ _ => some { features := [] } }
            : Option SpecIndex).map SpecIndex.toIndex)
        (tileURL 2 0 (1 : Nat)) = none :=
  ⟨by decide,
    (getTileData_out_of_range
      (some { maxZoom := 23, tiles := fun _ _ _ => some { features := [] } }) 1 2 0
      (by decide)).1,
    (getTileData_out_of_range
      (some { maxZoom := 23, tiles := fun _ _ _ => some { features := [] } }) 1 2 0
      (by decide)).2.1 " 2/0/1px" (by decide) (by decide) (by decide),
    (getTileData_out_of_range
      (some { maxZoom := 23, tiles := fun _ _ _ => some { features := [] } }) 1 2 0
      (by decide)).2.2 (by decide) (by decide) (by decide) (by decide) (by decide) (by decide)⟩

end DeckGLGeoJSONVT
